import Mathlib

/-! # Museum image normalization, formally

A shallow embedding of the image-normalization pipeline of
`src/Museum/models.py` (`resize_image` together with the save hooks of
`Event`, `Category` and `Exhibit`), including the behaviour of the PIL
operations the pipeline invokes (`Image.open`, `Image.paste`,
`Image.convert`, `Image.thumbnail`, JPEG `save`).

Modelling conventions:
* pixels are per-band natural values; an image is its size, its mode, a
  pixel function and (for palette images) a palette;
* Python float arithmetic inside `Image.thumbnail` is modelled by exact
  rational arithmetic;
* every PIL call that can raise is modelled in `Except`; the
  `try/except Exception: pass` of `resize_image` maps any error to the
  pass-through outcome;
* an encoded file keeps the encoder parameters (format, quality,
  optimize flag) and the encoded raster, so claims about the encoded
  output can be stated; the LANCZOS resampling filter's pixel values are
  abstracted by a coordinate remap (no claim depends on them).
-/

namespace Museum

/-- The PIL color modes the pipeline distinguishes: full-color with
alpha (`RGBA`), grayscale with alpha (`LA`), palette-indexed (`P`),
plain full-color (`RGB`), grayscale (`L`) and bilevel (mode `1`). -/
inductive Mode
  | RGBA
  | LA
  | P
  | RGB
  | L
  | bilevel
  deriving DecidableEq

/-- Image file formats an upload may carry / the encoder may produce. -/
inductive ImgFormat
  | JPEG
  | PNG
  | GIF
  | BMP
  deriving DecidableEq

/-- An in-memory decoded raster: dimensions, color mode, a per-band
pixel function (band values at coordinate `(x, y)`), and the palette
used when the mode is `P` (palette entries are RGB triples). -/
structure PILImage where
  width : Nat
  height : Nat
  mode : Mode
  pix : Nat → Nat → List Nat
  palette : Nat → List Nat

/-- Pillow's `MULDIV255` macro: division of a product of byte values by
255, with rounding, computed by the exact bit formula of the C code. -/
def muldiv255 (a b : Nat) : Nat :=
  let tmp := a * b + 128
  ((tmp >>> 8) + tmp) >>> 8

/-- Pillow's `BLEND` macro, the per-band formula used by a masked
`paste`: mask 255 keeps the source, mask 0 keeps the destination. -/
def blend (m d s : Nat) : Nat :=
  muldiv255 d (255 - m) + muldiv255 s m

/-- Conversion of one pixel to RGB band values, as PIL's mode
conversion performs it: `RGBA` drops the alpha band, `LA`/`L`/`1`
replicate the gray value, `P` looks the index up in the palette. -/
def toRGBpix (img : PILImage) (x y : Nat) : List Nat :=
  let p := img.pix x y
  match img.mode with
  | Mode.RGB => p
  | Mode.RGBA => p.take 3
  | Mode.LA => [p.headD 0, p.headD 0, p.headD 0]
  | Mode.L => [p.headD 0, p.headD 0, p.headD 0]
  | Mode.bilevel => [p.headD 0, p.headD 0, p.headD 0]
  | Mode.P => img.palette (p.headD 0)

/-- `img.split()[-1]`: the last band of the image (for `RGBA` this is
the alpha band). -/
def lastBand (img : PILImage) : Nat → Nat → Nat :=
  fun x y => (img.pix x y).getLastD 0

/-- `Image.new("RGB", (w, h), (255, 255, 255))`: an opaque white
full-color background. -/
def newRGB (w h : Nat) : PILImage :=
  { width := w
    height := h
    mode := Mode.RGB
    pix := fun _ _ => [255, 255, 255]
    palette := fun _ => [] }

/-- `dst.paste(src, mask)` for a source of the same size pasted at the
origin, as in `resize_image`: without a mask the source is converted to
the destination mode and copied; with a mask each band is blended by
Pillow's `BLEND` formula. -/
def paste (dst src : PILImage) (mask : Option (Nat → Nat → Nat)) : PILImage :=
  { dst with
    pix := fun x y =>
      match mask with
      | none => toRGBpix src x y
      | some m =>
          List.zipWith (fun d s => blend (m x y) d s) (dst.pix x y) (toRGBpix src x y) }

/-- `img.convert("RGB")`: plain mode conversion, no compositing. -/
def convertRGB (img : PILImage) : PILImage :=
  { img with mode := Mode.RGB, pix := fun x y => toRGBpix img x y }

/-- The color-mode normalization step of `resize_image`
(models.py lines 48-54), exactly as the code branches: modes `RGBA`,
`LA`, `P` are pasted onto a white background, with the image's last
band as mask only in the `RGBA` case; any other non-`RGB` mode is
converted; `RGB` is left alone. -/
def convertStep (img : PILImage) : PILImage :=
  if img.mode = Mode.RGBA ∨ img.mode = Mode.LA ∨ img.mode = Mode.P then
    let background := newRGB img.width img.height
    paste background img (if img.mode = Mode.RGBA then some (lastBand img) else none)
  else if img.mode ≠ Mode.RGB then convertRGB img
  else img

/-- Errors a PIL call inside the `try` block can raise. -/
inductive PILError
  | cannotIdentify
  | zeroDivision
  | badSize
  | cannotWriteJPEG
  deriving DecidableEq

/-- `Image.resize` to a (positive) target size: dimensions change, the
mode is kept, resampled pixel content is abstracted by a coordinate
remap. -/
def resizeTo (img : PILImage) (w h : Nat) : PILImage :=
  { img with
    width := w
    height := h
    pix := fun x y => img.pix (x * img.width / w) (y * img.height / h) }

/-- Pillow's `round_aspect(number, key)`: choose between floor and
ceiling by the key (ties prefer the floor, as Python's `min` does), then
clamp to at least 1. -/
def round_aspect (number : ℚ) (key : Int → ℚ) : Int :=
  max (if key ⌊number⌋ ≤ key ⌈number⌉ then ⌊number⌋ else ⌈number⌉) 1

/-- The tail of `Image.thumbnail` once the target size `(nx, ny)` is
known: if the size is unchanged nothing happens, a non-positive size
makes `Image.resize` raise, otherwise the image is resized. -/
def thumbFinish (img : PILImage) (nx ny : Int) : Except PILError PILImage :=
  if (img.width : Int) = nx ∧ (img.height : Int) = ny then Except.ok img
  else if nx ≤ 0 ∨ ny ≤ 0 then Except.error PILError.badSize
  else Except.ok (resizeTo img nx.toNat ny.toNat)

/-- `Image.thumbnail((x, y), LANCZOS)`, Pillow's aspect-preserving
in-place shrink, with Python float arithmetic carried out exactly in
`ℚ` and each Python `ZeroDivisionError` made explicit. -/
def thumbnail (img : PILImage) (x y : Int) : Except PILError PILImage :=
  if x ≥ (img.width : Int) ∧ y ≥ (img.height : Int) then Except.ok img
  else if img.height = 0 then Except.error PILError.zeroDivision
  else if y = 0 then Except.error PILError.zeroDivision
  else if (x : ℚ) / (y : ℚ) ≥ (img.width : ℚ) / (img.height : ℚ) then
    thumbFinish img
      (round_aspect ((y : ℚ) * ((img.width : ℚ) / (img.height : ℚ)))
        (fun n => |(img.width : ℚ) / (img.height : ℚ) - (n : ℚ) / (y : ℚ)|))
      y
  else if img.width = 0 then Except.error PILError.zeroDivision
  else
    thumbFinish img x
      (round_aspect ((x : ℚ) / ((img.width : ℚ) / (img.height : ℚ)))
        (fun n => if n = 0 then 0 else |(img.width : ℚ) / (img.height : ℚ) - (x : ℚ) / (n : ℚ)|))

/-- The bounding step of `resize_image` (models.py lines 56-58): the
image is shrunk only when a dimension exceeds its bound. -/
def boundStep (img : PILImage) (max_width max_height : Int) : Except PILError PILImage :=
  if (img.width : Int) > max_width ∨ (img.height : Int) > max_height then
    thumbnail img max_width max_height
  else Except.ok img

/-- An encoded image file: the format and encoder parameters used, and
the raster it encodes. -/
structure Encoded where
  format : ImgFormat
  quality : Int
  optimize : Bool
  image : PILImage

/-- The bytes stored behind an image field: either bytes that decode to
a raster (kept with the encoder metadata that produced them), or bytes
no decoder accepts. -/
inductive FileData
  | corrupt (bytes : List Nat)
  | image (e : Encoded)

/-- A Django `ImageField` value: a logical filename and the stored
bytes. -/
structure ImageFieldState where
  name : String
  content : FileData

/-- `Image.open`: decoding succeeds exactly on decodable bytes and
yields the raster they encode; corrupt bytes raise. -/
def imageOpen : FileData → Except PILError PILImage
  | FileData.corrupt _ => Except.error PILError.cannotIdentify
  | FileData.image e => Except.ok e.image

/-- `img.save(output, format="JPEG", quality=q, optimize=o)`: JPEG
cannot encode alpha-bearing or palette modes (Pillow raises "cannot
write mode ... as JPEG"); otherwise the encoded file records the
encoder parameters and the raster. -/
def jpegSave (img : PILImage) (quality : Int) (optimize : Bool) : Except PILError Encoded :=
  if img.mode = Mode.RGBA ∨ img.mode = Mode.LA ∨ img.mode = Mode.P then
    Except.error PILError.cannotWriteJPEG
  else Except.ok ⟨ImgFormat.JPEG, quality, optimize, img⟩

/-- The body of the `try` block of `resize_image` (models.py lines
45-66): decode, normalize the color mode, bound the size, re-encode as
JPEG, and store the result under the field's existing name
(`image_field.save(image_field.name, ...)`). Any step may raise. -/
def tryBody (f : ImageFieldState) (max_width max_height quality : Int) :
    Except PILError ImageFieldState :=
  match imageOpen f.content with
  | Except.error e => Except.error e
  | Except.ok img0 =>
    match boundStep (convertStep img0) max_width max_height with
    | Except.error e => Except.error e
    | Except.ok img2 =>
      match jpegSave img2 quality true with
      | Except.error e => Except.error e
      | Except.ok enc => Except.ok ⟨f.name, FileData.image enc⟩

/-- `resize_image(image_field, max_width, max_height, quality)`:
a falsy (absent) field returns at once; otherwise the `try` body runs
and `except Exception: pass` keeps the original field on any error. -/
def resize_image (image_field : Option ImageFieldState)
    (max_width max_height quality : Int) : Option ImageFieldState :=
  match image_field with
  | none => none
  | some f =>
    match tryBody f max_width max_height quality with
    | Except.ok f2 => some f2
    | Except.error _ => some f

/-- The `Exhibit` model: the fields its save hook inspects. -/
structure Exhibit where
  title : String
  image : Option ImageFieldState
  view_count : Nat

/-- The resize-then-persist path shared by the save hooks: when an
image is present `resize_image` is invoked (flag `true`) and the field
is replaced; otherwise nothing happens (flag `false`). The returned
Boolean records whether `resize_image` was invoked. -/
def saveWithResize (image : Option ImageFieldState)
    (max_width max_height quality : Int) : Option ImageFieldState × Bool :=
  match image with
  | some f => (resize_image (some f) max_width max_height quality, true)
  | none => (none, false)

/-- `Exhibit.save` (models.py lines 243-258): a truthy `update_fields`
that contains `"view_count"` and has length 1 skips the resize step and
persists directly; every other call goes through the resize path. -/
def Exhibit.save (ex : Exhibit) (update_fields : Option (List String))
    (max_width max_height quality : Int) : Exhibit × Bool :=
  match update_fields with
  | some fs =>
    if fs ≠ [] ∧ "view_count" ∈ fs ∧ fs.length = 1 then (ex, false)
    else
      let r := saveWithResize ex.image max_width max_height quality
      ({ ex with image := r.1 }, r.2)
  | none =>
    let r := saveWithResize ex.image max_width max_height quality
    ({ ex with image := r.1 }, r.2)

/-- `Exhibit.increment_view_count` (models.py lines 260-263): bump the
counter and save with `update_fields=["view_count"]`. -/
def Exhibit.increment_view_count (ex : Exhibit)
    (max_width max_height quality : Int) : Exhibit × Bool :=
  Exhibit.save { ex with view_count := ex.view_count + 1 }
    (some ["view_count"]) max_width max_height quality

/-- The `Event` model: the fields its save hook inspects. -/
structure Event where
  title : String
  image : Option ImageFieldState

/-- `Event.save` (models.py lines 111-120): resize when an image is
present, then persist. -/
def Event.save (ev : Event) (max_width max_height quality : Int) : Event × Bool :=
  let r := saveWithResize ev.image max_width max_height quality
  ({ ev with image := r.1 }, r.2)

/-- The `Category` model: the fields its save hook inspects. -/
structure Category where
  title : String
  image : Option ImageFieldState

/-- `Category.save` (models.py lines 164-173): resize when an image is
present, then persist. -/
def Category.save (c : Category) (max_width max_height quality : Int) : Category × Bool :=
  let r := saveWithResize c.image max_width max_height quality
  ({ c with image := r.1 }, r.2)

/-! ## Structural lemmas about the pipeline stages -/

theorem one_le_round_aspect (number : ℚ) (key : Int → ℚ) : 1 ≤ round_aspect number key :=
  le_max_right _ _

theorem round_aspect_le (number : ℚ) (key : Int → ℚ) (m : Int)
    (hm : 1 ≤ m) (hn : number ≤ (m : ℚ)) : round_aspect number key ≤ m := by
  unfold round_aspect
  refine max_le ?_ hm
  have hfl : ⌊number⌋ ≤ m := by
    have h1 := Int.floor_le_floor hn
    simpa using h1
  have hcl : ⌈number⌉ ≤ m := Int.ceil_le.mpr hn
  split
  · exact hfl
  · exact hcl

theorem round_aspect_close (number : ℚ) (key : Int → ℚ) (h0 : 0 ≤ number) :
    |((round_aspect number key : Int) : ℚ) - number| ≤ 1 := by
  have hlow : number - 1 ≤ ((round_aspect number key : Int) : ℚ) := by
    have h1 : ⌊number⌋ ≤ round_aspect number key := by
      unfold round_aspect
      refine le_max_of_le_left ?_
      split
      · exact le_refl _
      · exact Int.floor_le_ceil number
    have h2 : ((⌊number⌋ : Int) : ℚ) ≤ ((round_aspect number key : Int) : ℚ) := by
      exact_mod_cast h1
    have h3 : number - 1 ≤ ((⌊number⌋ : Int) : ℚ) := le_of_lt (Int.sub_one_lt_floor number)
    linarith
  have hhigh : ((round_aspect number key : Int) : ℚ) ≤ number + 1 := by
    have h1 : round_aspect number key ≤ max ⌈number⌉ 1 := by
      unfold round_aspect
      refine max_le_max ?_ (le_refl 1)
      split
      · exact Int.floor_le_ceil number
      · exact le_refl _
    have h2 : ((round_aspect number key : Int) : ℚ) ≤ ((max ⌈number⌉ 1 : Int) : ℚ) := by
      exact_mod_cast h1
    have h3 : ((max ⌈number⌉ 1 : Int) : ℚ) = max ((⌈number⌉ : Int) : ℚ) 1 := by
      push_cast
      rfl
    have h4 : ((⌈number⌉ : Int) : ℚ) ≤ number + 1 := le_of_lt (Int.ceil_lt_add_one number)
    have h5 : (1 : ℚ) ≤ number + 1 := by linarith
    rw [h3] at h2
    exact le_trans h2 (max_le h4 h5)
  rw [abs_sub_le_iff]
  constructor <;> linarith

theorem thumbFinish_ok (img : PILImage) (nx ny : Int) (hx : 1 ≤ nx) (hy : 1 ≤ ny) :
    ∃ out, thumbFinish img nx ny = Except.ok out ∧
      (out.width : Int) = nx ∧ (out.height : Int) = ny ∧ out.mode = img.mode := by
  unfold thumbFinish
  split
  · next heq => exact ⟨img, rfl, heq.1, heq.2, rfl⟩
  · next hne =>
    rw [if_neg (by omega)]
    refine ⟨resizeTo img nx.toNat ny.toNat, rfl, ?_, ?_, rfl⟩
    · show ((nx.toNat : Nat) : Int) = nx
      omega
    · show ((ny.toNat : Nat) : Int) = ny
      omega

theorem convertStep_width (img : PILImage) : (convertStep img).width = img.width := by
  unfold convertStep
  split
  · rfl
  · split
    · rfl
    · rfl

theorem convertStep_height (img : PILImage) : (convertStep img).height = img.height := by
  unfold convertStep
  split
  · rfl
  · split
    · rfl
    · rfl

theorem convertStep_mode (img : PILImage) : (convertStep img).mode = Mode.RGB := by
  unfold convertStep
  split
  · rfl
  · split
    · rfl
    · next h1 h2 => exact not_not.mp h2

theorem convertStep_rgb_id (img : PILImage) (h : img.mode = Mode.RGB) :
    convertStep img = img := by
  unfold convertStep
  rw [if_neg (by simp [h]), if_neg (by simp [h])]

/-! ## The main dimension theorem about `Image.thumbnail` -/

theorem thumbnail_spec (img : PILImage) (x y : Int)
    (hw : 1 ≤ img.width) (hh : 1 ≤ img.height) (hx : 1 ≤ x) (hy : 1 ≤ y)
    (hbig : (img.width : Int) > x ∨ (img.height : Int) > y) :
    ∃ out, thumbnail img x y = Except.ok out ∧
      out.mode = img.mode ∧
      1 ≤ out.width ∧ 1 ≤ out.height ∧
      out.width ≤ img.width ∧ out.height ≤ img.height ∧
      (out.width : Int) ≤ x ∧ (out.height : Int) ≤ y ∧
      |(out.width : Int) * (img.height : Int) - (img.width : Int) * (out.height : Int)| ≤
        max (img.width : Int) (img.height : Int) := by
  have hw0 : 0 < img.width := hw
  have hh0 : 0 < img.height := hh
  have hx0 : (0 : Int) < x := by omega
  have hy0 : (0 : Int) < y := by omega
  have hwQ : (0 : ℚ) < (img.width : ℚ) := by exact_mod_cast hw0
  have hhQ : (0 : ℚ) < (img.height : ℚ) := by exact_mod_cast hh0
  have hxQ : (0 : ℚ) < (x : ℚ) := by exact_mod_cast hx0
  have hyQ : (0 : ℚ) < (y : ℚ) := by exact_mod_cast hy0
  unfold thumbnail
  rw [if_neg (by omega), if_neg (by omega), if_neg (by omega)]
  by_cases hc : (x : ℚ) / (y : ℚ) ≥ (img.width : ℚ) / (img.height : ℚ)
  case pos =>
    rw [if_pos hc]
    have hc' : (img.width : ℚ) * (y : ℚ) ≤ (x : ℚ) * (img.height : ℚ) :=
      (div_le_div_iff₀ hhQ hyQ).mp hc
    have hylth : y < (img.height : Int) := by
      by_contra hyge
      push_neg at hyge
      have hhy : (img.height : ℚ) ≤ (y : ℚ) := by exact_mod_cast hyge
      have h1 : (img.width : ℚ) * (img.height : ℚ) ≤ (x : ℚ) * (img.height : ℚ) := by nlinarith
      have h2 : (img.width : ℚ) ≤ (x : ℚ) := le_of_mul_le_mul_right h1 hhQ
      have h3 : (img.width : Int) ≤ x := by exact_mod_cast h2
      omega
    have hyleh : (y : ℚ) ≤ (img.height : ℚ) := by
      have := le_of_lt hylth
      exact_mod_cast this
    set number : ℚ := (y : ℚ) * ((img.width : ℚ) / (img.height : ℚ)) with hnumdef
    set key1 : Int → ℚ :=
      fun n => |(img.width : ℚ) / (img.height : ℚ) - (n : ℚ) / (y : ℚ)| with hkey1
    have hnum0 : 0 ≤ number := by
      rw [hnumdef]
      positivity
    have hnum_le_x : number ≤ (x : ℚ) := by
      rw [hnumdef, ← mul_div_assoc, div_le_iff₀ hhQ]
      nlinarith
    have hnum_le_w : number ≤ (img.width : ℚ) := by
      rw [hnumdef, ← mul_div_assoc, div_le_iff₀ hhQ]
      nlinarith
    have h1nx : 1 ≤ round_aspect number key1 := one_le_round_aspect number key1
    have hnx_le_x : round_aspect number key1 ≤ x := round_aspect_le number key1 x hx hnum_le_x
    have hnx_le_w : round_aspect number key1 ≤ (img.width : Int) :=
      round_aspect_le number key1 (img.width : Int) (by exact_mod_cast hw)
        (by exact_mod_cast hnum_le_w)
    have hclose : |((round_aspect number key1 : Int) : ℚ) - number| ≤ 1 :=
      round_aspect_close number key1 hnum0
    obtain ⟨out, hout, howidth, hoheight, homode⟩ :=
      thumbFinish_ok img (round_aspect number key1) y h1nx hy
    refine ⟨out, hout, homode, ?_, ?_, ?_, ?_, ?_, ?_, ?_⟩
    · omega
    · omega
    · omega
    · omega
    · omega
    · omega
    · rw [howidth, hoheight]
      have hmul : ((round_aspect number key1 : Int) : ℚ) * (img.height : ℚ) -
          (img.width : ℚ) * (y : ℚ) =
          (((round_aspect number key1 : Int) : ℚ) - number) * (img.height : ℚ) := by
        rw [hnumdef]
        field_simp
        ring
      have key : |((round_aspect number key1 : Int) : ℚ) * (img.height : ℚ) -
          (img.width : ℚ) * (y : ℚ)| ≤ (img.height : ℚ) := by
        rw [hmul, abs_mul, abs_of_pos hhQ]
        calc |((round_aspect number key1 : Int) : ℚ) - number| * (img.height : ℚ)
            ≤ 1 * (img.height : ℚ) := mul_le_mul_of_nonneg_right hclose (le_of_lt hhQ)
          _ = (img.height : ℚ) := one_mul _
      have keyInt : |(round_aspect number key1) * (img.height : Int) -
          (img.width : Int) * y| ≤ (img.height : Int) := by
        exact_mod_cast key
      exact le_trans keyInt (le_max_right _ _)
  case neg =>
    rw [if_neg hc, if_neg (by omega)]
    push_neg at hc
    have hc' : (x : ℚ) * (img.height : ℚ) < (img.width : ℚ) * (y : ℚ) :=
      (div_lt_div_iff₀ hyQ hhQ).mp hc
    have hxltw : x < (img.width : Int) := by
      by_contra hxge
      push_neg at hxge
      have hwx : (img.width : ℚ) ≤ (x : ℚ) := by exact_mod_cast hxge
      have h1 : (img.width : ℚ) * (img.height : ℚ) < (img.width : ℚ) * (y : ℚ) := by nlinarith
      have h2 : (img.height : ℚ) < (y : ℚ) := lt_of_mul_lt_mul_left h1 (le_of_lt hwQ)
      have h3 : (img.height : Int) < y := by exact_mod_cast h2
      omega
    have hxlew : (x : ℚ) ≤ (img.width : ℚ) := by
      have := le_of_lt hxltw
      exact_mod_cast this
    have hasp0 : (0 : ℚ) < (img.width : ℚ) / (img.height : ℚ) := div_pos hwQ hhQ
    set number : ℚ := (x : ℚ) / ((img.width : ℚ) / (img.height : ℚ)) with hnumdef
    set key2 : Int → ℚ :=
      fun n => if n = 0 then 0
        else |(img.width : ℚ) / (img.height : ℚ) - (x : ℚ) / (n : ℚ)| with hkey2
    have hnum0 : 0 ≤ number := by
      rw [hnumdef]
      exact le_of_lt (div_pos hxQ hasp0)
    have hnum_le_y : number ≤ (y : ℚ) := by
      rw [hnumdef, div_le_iff₀ hasp0, ← mul_div_assoc, le_div_iff₀ hhQ]
      nlinarith
    have hnum_le_h : number ≤ (img.height : ℚ) := by
      rw [hnumdef, div_le_iff₀ hasp0, ← mul_div_assoc, le_div_iff₀ hhQ]
      nlinarith
    have h1ny : 1 ≤ round_aspect number key2 := one_le_round_aspect number key2
    have hny_le_y : round_aspect number key2 ≤ y := round_aspect_le number key2 y hy hnum_le_y
    have hny_le_h : round_aspect number key2 ≤ (img.height : Int) :=
      round_aspect_le number key2 (img.height : Int) (by exact_mod_cast hh)
        (by exact_mod_cast hnum_le_h)
    have hclose : |((round_aspect number key2 : Int) : ℚ) - number| ≤ 1 :=
      round_aspect_close number key2 hnum0
    obtain ⟨out, hout, howidth, hoheight, homode⟩ :=
      thumbFinish_ok img x (round_aspect number key2) hx h1ny
    refine ⟨out, hout, homode, ?_, ?_, ?_, ?_, ?_, ?_, ?_⟩
    · omega
    · omega
    · omega
    · omega
    · omega
    · omega
    · rw [howidth, hoheight]
      have hmul : (x : ℚ) * (img.height : ℚ) -
          (img.width : ℚ) * ((round_aspect number key2 : Int) : ℚ) =
          (number - ((round_aspect number key2 : Int) : ℚ)) * (img.width : ℚ) := by
        rw [hnumdef]
        field_simp
      have key : |(x : ℚ) * (img.height : ℚ) -
          (img.width : ℚ) * ((round_aspect number key2 : Int) : ℚ)| ≤ (img.width : ℚ) := by
        rw [hmul, abs_mul, abs_of_pos hwQ]
        have h2 : |number - ((round_aspect number key2 : Int) : ℚ)| ≤ 1 := by
          rw [abs_sub_comm]
          exact hclose
        calc |number - ((round_aspect number key2 : Int) : ℚ)| * (img.width : ℚ)
            ≤ 1 * (img.width : ℚ) := mul_le_mul_of_nonneg_right h2 (le_of_lt hwQ)
          _ = (img.width : ℚ) := one_mul _
      have keyInt : |x * (img.height : Int) -
          (img.width : Int) * (round_aspect number key2)| ≤ (img.width : Int) := by
        exact_mod_cast key
      exact le_trans keyInt (le_max_left _ _)

/-! ## The bounding step and the full pipeline -/

theorem boundStep_spec (img : PILImage) (mW mH : Int)
    (hw : 1 ≤ img.width) (hh : 1 ≤ img.height) (hx : 1 ≤ mW) (hy : 1 ≤ mH) :
    ∃ out, boundStep img mW mH = Except.ok out ∧
      out.mode = img.mode ∧
      1 ≤ out.width ∧ 1 ≤ out.height ∧
      out.width ≤ img.width ∧ out.height ≤ img.height ∧
      (out.width : Int) ≤ mW ∧ (out.height : Int) ≤ mH ∧
      (((img.width : Int) ≤ mW ∧ (img.height : Int) ≤ mH) → out = img) ∧
      |(out.width : Int) * (img.height : Int) - (img.width : Int) * (out.height : Int)| ≤
        max (img.width : Int) (img.height : Int) := by
  unfold boundStep
  split
  · next hbig =>
    obtain ⟨out, h1, h2, h3, h4, h5, h6, h7, h8, h9⟩ :=
      thumbnail_spec img mW mH hw hh hx hy hbig
    exact ⟨out, h1, h2, h3, h4, h5, h6, h7, h8, fun hfits => by omega, h9⟩
  · next hfits =>
    push_neg at hfits
    refine ⟨img, rfl, rfl, hw, hh, le_refl _, le_refl _, hfits.1, hfits.2, fun _ => rfl, ?_⟩
    rw [mul_comm, sub_self, abs_zero]
    omega

theorem jpegSave_rgb_ok (img : PILImage) (h : img.mode = Mode.RGB) (q : Int) (o : Bool) :
    jpegSave img q o = Except.ok ⟨ImgFormat.JPEG, q, o, img⟩ := by
  unfold jpegSave
  rw [if_neg (by simp [h])]

theorem jpegSave_ok_shape {img : PILImage} {q : Int} {o : Bool} {e : Encoded}
    (h : jpegSave img q o = Except.ok e) : e = ⟨ImgFormat.JPEG, q, o, img⟩ := by
  unfold jpegSave at h
  split at h
  · cases h
  · cases h
    rfl

theorem resize_image_of_tryBody_ok {f f2 : ImageFieldState} {mW mH q : Int}
    (h : tryBody f mW mH q = Except.ok f2) :
    resize_image (some f) mW mH q = some f2 := by
  simp only [resize_image, h]

theorem resize_image_of_tryBody_error {f : ImageFieldState} {mW mH q : Int} {err : PILError}
    (h : tryBody f mW mH q = Except.error err) :
    resize_image (some f) mW mH q = some f := by
  simp only [resize_image, h]

theorem tryBody_shape {f f2 : ImageFieldState} {mW mH q : Int}
    (h : tryBody f mW mH q = Except.ok f2) :
    ∃ img2 : PILImage,
      f2 = ⟨f.name, FileData.image ⟨ImgFormat.JPEG, q, true, img2⟩⟩ := by
  unfold tryBody at h
  cases hio : imageOpen f.content with
  | error e =>
    simp only [hio] at h
    cases h
  | ok img0 =>
    simp only [hio] at h
    cases hbs : boundStep (convertStep img0) mW mH with
    | error e =>
      simp only [hbs] at h
      cases h
    | ok img2 =>
      simp only [hbs] at h
      cases hj : jpegSave img2 q true with
      | error e =>
        simp only [hj] at h
        cases h
      | ok enc =>
        simp only [hj] at h
        cases h
        exact ⟨img2, by rw [jpegSave_ok_shape hj]⟩

theorem resize_outcomes (f : ImageFieldState) (mW mH q : Int) :
    resize_image (some f) mW mH q = some f ∨
    ∃ e : Encoded, resize_image (some f) mW mH q = some ⟨f.name, FileData.image e⟩ ∧
      e.format = ImgFormat.JPEG ∧ e.quality = q ∧ e.optimize = true := by
  cases htb : tryBody f mW mH q with
  | error err => exact Or.inl (resize_image_of_tryBody_error htb)
  | ok f2 =>
    obtain ⟨img2, rfl⟩ := tryBody_shape htb
    exact Or.inr ⟨_, resize_image_of_tryBody_ok htb, rfl, rfl, rfl⟩

theorem tryBody_ok (f : ImageFieldState) (e0 : Encoded) (mW mH q : Int)
    (hc : f.content = FileData.image e0)
    (hw : 1 ≤ e0.image.width) (hh : 1 ≤ e0.image.height)
    (hx : 1 ≤ mW) (hy : 1 ≤ mH) :
    ∃ out : PILImage,
      tryBody f mW mH q =
        Except.ok ⟨f.name, FileData.image ⟨ImgFormat.JPEG, q, true, out⟩⟩ ∧
      out.mode = Mode.RGB ∧
      1 ≤ out.width ∧ 1 ≤ out.height ∧
      out.width ≤ e0.image.width ∧ out.height ≤ e0.image.height ∧
      (out.width : Int) ≤ mW ∧ (out.height : Int) ≤ mH := by
  have hw1 : 1 ≤ (convertStep e0.image).width := by
    rw [convertStep_width]
    exact hw
  have hh1 : 1 ≤ (convertStep e0.image).height := by
    rw [convertStep_height]
    exact hh
  obtain ⟨out, h1, h2, h3, h4, h5, h6, h7, h8, _, _⟩ :=
    boundStep_spec (convertStep e0.image) mW mH hw1 hh1 hx hy
  have hmode : out.mode = Mode.RGB := by
    rw [h2]
    exact convertStep_mode e0.image
  refine ⟨out, ?_, hmode, h3, h4, ?_, ?_, h7, h8⟩
  · unfold tryBody
    rw [hc]
    simp only [imageOpen, h1, jpegSave_rgb_ok out hmode q true]
  · rw [convertStep_width] at h5
    exact h5
  · rw [convertStep_height] at h6
    exact h6

/-! ## Claim-side description of the color-mode step, and samples -/

/-- Whether a mode carries an alpha channel. -/
def modeHasAlpha : Mode → Bool
  | Mode.RGBA => true
  | Mode.LA => true
  | _ => false

/-- The color-mode step as claim C3 states it: a mode carrying
transparency or palette-indexed is composited onto an opaque white
background of identical dimensions, with the image's own alpha channel
as the composite mask whenever an alpha channel is present (so in
particular for grayscale-with-alpha input), copying directly when no
alpha is present; any other non-full-color mode is converted without
compositing. -/
def claimedConvertStep (img : PILImage) : PILImage :=
  if modeHasAlpha img.mode = true ∨ img.mode = Mode.P then
    paste (newRGB img.width img.height) img
      (if modeHasAlpha img.mode = true then some (lastBand img) else none)
  else if img.mode ≠ Mode.RGB then convertRGB img
  else img

/-- The color-mode step as amended: the alpha mask is used only for
full-color-with-alpha (`RGBA`) input; grayscale-with-alpha and
palette-indexed input is pasted with no mask (plain mode conversion,
any alpha ignored); other non-full-color modes are converted without
compositing. -/
def amendedConvertStep (img : PILImage) : PILImage :=
  if modeHasAlpha img.mode = true ∨ img.mode = Mode.P then
    paste (newRGB img.width img.height) img
      (if img.mode = Mode.RGBA then some (lastBand img) else none)
  else if img.mode ≠ Mode.RGB then convertRGB img
  else img

/-- A 3000×2000 full-color-with-alpha raster (fully transparent dark
pixels). -/
def rgbaSample : PILImage :=
  { width := 3000
    height := 2000
    mode := Mode.RGBA
    pix := fun _ _ => [10, 20, 30, 0]
    palette := fun _ => [] }

/-- The `rgbaSample` raster as an uploaded PNG file. -/
def pngEnc : Encoded := ⟨ImgFormat.PNG, 0, false, rgbaSample⟩

/-- An image field holding the PNG upload. -/
def pngField : ImageFieldState := ⟨"photo.png", FileData.image pngEnc⟩

/-- A 1×1 grayscale-with-alpha raster whose single pixel is dark and
fully transparent. -/
def laSample : PILImage :=
  { width := 1
    height := 1
    mode := Mode.LA
    pix := fun _ _ => [7, 0]
    palette := fun _ => [] }

/-- A small opaque full-color raster, already within bounds. -/
def rgbSample : PILImage :=
  { width := 100
    height := 100
    mode := Mode.RGB
    pix := fun _ _ => [1, 2, 3]
    palette := fun _ => [] }

/-- The `rgbSample` raster as an already-normalized JPEG file. -/
def normalEnc : Encoded := ⟨ImgFormat.JPEG, 85, true, rgbSample⟩

/-- An image field holding the normalized JPEG. -/
def normalField : ImageFieldState := ⟨"ok.jpg", FileData.image normalEnc⟩

/-- An image field holding undecodable bytes (a truncated PNG header). -/
def corruptField : ImageFieldState := ⟨"broken.png", FileData.corrupt [137, 80, 78, 71]⟩

/-- An exhibit carrying an image. -/
def exhibitSample : Exhibit := ⟨"Vase", some normalField, 0⟩

/-! ## Evaluation of the concrete 3000×2000 scenario -/

theorem rgba_thumb_eval : thumbnail (convertStep rgbaSample) 1920 1920 =
    Except.ok (resizeTo (convertStep rgbaSample) 1920 1280) := by
  have hcw : (convertStep rgbaSample).width = 3000 := by
    rw [convertStep_width]
    rfl
  have hch : (convertStep rgbaSample).height = 2000 := by
    rw [convertStep_height]
    rfl
  unfold thumbnail
  rw [hcw, hch]
  rw [if_neg (by norm_num), if_neg (by norm_num), if_neg (by norm_num),
    if_neg (by norm_num), if_neg (by norm_num)]
  push_cast
  rw [show round_aspect ((1920 : ℚ) / ((3000 : ℚ) / (2000 : ℚ)))
      (fun n => if n = 0 then 0 else |(3000 : ℚ) / (2000 : ℚ) - (1920 : ℚ) / (n : ℚ)|) =
      1280 by
    unfold round_aspect
    rw [show ((1920 : ℚ) / ((3000 : ℚ) / (2000 : ℚ))) = (1280 : ℚ) by norm_num]
    rw [show ⌊(1280 : ℚ)⌋ = (1280 : Int) by norm_num]
    rw [show ⌈(1280 : ℚ)⌉ = (1280 : Int) by norm_num]
    rw [ite_self]
    decide]
  unfold thumbFinish
  rw [hcw, hch]
  rw [if_neg (by norm_num), if_neg (by norm_num)]
  rfl

theorem rgba_tryBody_eval : tryBody pngField 1920 1920 85 =
    Except.ok ⟨"photo.png", FileData.image
      ⟨ImgFormat.JPEG, 85, true, resizeTo (convertStep rgbaSample) 1920 1280⟩⟩ := by
  have hmode2 : (resizeTo (convertStep rgbaSample) 1920 1280).mode = Mode.RGB := by
    show (convertStep rgbaSample).mode = Mode.RGB
    exact convertStep_mode rgbaSample
  have hbs : boundStep (convertStep rgbaSample) 1920 1920 =
      Except.ok (resizeTo (convertStep rgbaSample) 1920 1280) := by
    unfold boundStep
    rw [convertStep_width, convertStep_height]
    rw [if_pos (by decide)]
    exact rgba_thumb_eval
  unfold tryBody
  simp only [pngField, pngEnc, imageOpen, hbs, jpegSave_rgb_ok _ hmode2 85 true]

/-! ## The claims -/

/-- C1: for every decodable input image and every policy with
`max_width ≥ 1`, `max_height ≥ 1` and `quality ∈ [1,100]`, the output
of normalization has width ≤ `max_width`, height ≤ `max_height`, and
its color mode is plain full-color (`RGB`, no alpha channel). -/
theorem c1_normalize_bounds (f : ImageFieldState) (e0 : Encoded) (mW mH q : Int)
    (hc : f.content = FileData.image e0)
    (hw : 1 ≤ e0.image.width) (hh : 1 ≤ e0.image.height)
    (hx : 1 ≤ mW) (hy : 1 ≤ mH) (hq1 : 1 ≤ q) (hq2 : q ≤ 100) :
    ∃ e : Encoded,
      resize_image (some f) mW mH q = some ⟨f.name, FileData.image e⟩ ∧
      (e.image.width : Int) ≤ mW ∧ (e.image.height : Int) ≤ mH ∧
      e.image.mode = Mode.RGB := by
  obtain ⟨out, h1, h2, _, _, _, _, h7, h8⟩ := tryBody_ok f e0 mW mH q hc hw hh hx hy
  exact ⟨⟨ImgFormat.JPEG, q, true, out⟩, resize_image_of_tryBody_ok h1, h7, h8, h2⟩

/-- C1 witness: the 3000×2000 RGBA PNG upload under the default
policy. -/
theorem c1_normalize_bounds_w :
    ∃ e : Encoded,
      resize_image (some pngField) 1920 1920 85 = some ⟨pngField.name, FileData.image e⟩ ∧
      (e.image.width : Int) ≤ 1920 ∧ (e.image.height : Int) ≤ 1920 ∧
      e.image.mode = Mode.RGB :=
  c1_normalize_bounds pngField pngEnc 1920 1920 85 rfl (by decide) (by decide)
    (by decide) (by decide) (by decide) (by decide)

/-- C2: every undecodable byte sequence passes through byte-for-byte —
the field is returned exactly as it was, no exception reaches the
caller — and for any input whatsoever the two only outcomes are
normalized bytes or pass-through of the original field. -/
theorem c2_corrupt_passthrough (f : ImageFieldState) (b : List Nat) (mW mH q : Int)
    (hc : f.content = FileData.corrupt b) :
    resize_image (some f) mW mH q = some f ∧
    ∀ g : ImageFieldState,
      resize_image (some g) mW mH q = some g ∨
      ∃ e : Encoded, resize_image (some g) mW mH q = some ⟨g.name, FileData.image e⟩ := by
  constructor
  · have herr : tryBody f mW mH q = Except.error PILError.cannotIdentify := by
      unfold tryBody
      rw [hc]
      rfl
    exact resize_image_of_tryBody_error herr
  · intro g
    rcases resize_outcomes g mW mH q with hl | ⟨e, he, _, _, _⟩
    · exact Or.inl hl
    · exact Or.inr ⟨e, he⟩

/-- C2 witness: a truncated PNG header passes through unchanged. -/
theorem c2_corrupt_passthrough_w :
    resize_image (some corruptField) 1920 1920 85 = some corruptField ∧
    ∀ g : ImageFieldState,
      resize_image (some g) 1920 1920 85 = some g ∨
      ∃ e : Encoded, resize_image (some g) 1920 1920 85 = some ⟨g.name, FileData.image e⟩ :=
  c2_corrupt_passthrough corruptField [137, 80, 78, 71] 1920 1920 85 rfl

/-- C3 counterexample: the claim says the image's own alpha channel is
used as the composite mask whenever an alpha channel is present, in
particular for grayscale-with-alpha input; but on a fully transparent
`LA` pixel the code pastes with no mask (keeping the dark gray value)
while the claimed step composites to white, so the two disagree. -/
theorem c3_cex_la_mask : ¬ (convertStep laSample = claimedConvertStep laSample) := by
  intro h
  have h0 : (convertStep laSample).pix 0 0 = (claimedConvertStep laSample).pix 0 0 := by
    rw [h]
  have h1 : (convertStep laSample).pix 0 0 = [7, 7, 7] := by decide
  have h2 : (claimedConvertStep laSample).pix 0 0 = [255, 255, 255] := by decide
  rw [h1, h2] at h0
  cases h0

/-- C3 amended: the color-mode step composites transparency-carrying
and palette-indexed modes onto an opaque white background of identical
dimensions, but uses the alpha channel as composite mask only for
full-color-with-alpha input; grayscale-with-alpha (and palette) input
is pasted maskless, i.e. by plain mode conversion that ignores alpha;
any other non-full-color mode is converted without compositing. -/
theorem c3_convert_mask_amended :
    (∀ img : PILImage, convertStep img = amendedConvertStep img) ∧
    (∀ (img : PILImage) (x y : Nat), img.mode = Mode.LA →
      (convertStep img).pix x y = toRGBpix img x y) := by
  constructor
  · intro img
    unfold convertStep amendedConvertStep
    cases hm : img.mode <;> simp [hm, modeHasAlpha]
  · intro img x y hm
    unfold convertStep
    rw [if_pos (Or.inr (Or.inl hm)), if_neg (by rw [hm]; intro hcon; cases hcon)]
    rfl

/-- C3 amended witness: at the transparent `LA` sample. -/
theorem c3_convert_mask_amended_w :
    convertStep laSample = amendedConvertStep laSample ∧
    (convertStep laSample).pix 0 0 = toRGBpix laSample 0 0 :=
  ⟨c3_convert_mask_amended.1 laSample, c3_convert_mask_amended.2 laSample 0 0 rfl⟩

/-- C4 counterexample: `update_fields=["title"]` is a partial update
scoped to non-image fields, yet `Exhibit.save` still invokes
`resize_image` on its image (flag `true`), so the claimed bypass for
every non-image-scoped partial update is false. -/
theorem c4_cex_title_update :
    ("image" ∈ ["title"] → False) ∧
    (Exhibit.save exhibitSample (some ["title"]) 1920 1920 85).2 = true := by
  constructor
  · decide
  · rfl

/-- C4 amended: only the counter-only partial update naming exactly
`view_count` bypasses normalization — `resize_image` is not invoked and
the exhibit (its image bytes included) is returned untouched — and
`increment_view_count` saves with `update_fields=["view_count"]`, so it
takes this bypass path. -/
theorem c4_view_count_bypass (ex : Exhibit) (mW mH q : Int) :
    Exhibit.save ex (some ["view_count"]) mW mH q = (ex, false) ∧
    Exhibit.increment_view_count ex mW mH q =
      ({ ex with view_count := ex.view_count + 1 }, false) :=
  ⟨rfl, rfl⟩

/-- C4 amended witness: at the sample exhibit. -/
theorem c4_view_count_bypass_w :
    Exhibit.save exhibitSample (some ["view_count"]) 1920 1920 85 = (exhibitSample, false) ∧
    Exhibit.increment_view_count exhibitSample 1920 1920 85 =
      ({ exhibitSample with view_count := exhibitSample.view_count + 1 }, false) :=
  c4_view_count_bypass exhibitSample 1920 1920 85

/-- C5: the bounding step of normalization shrinks an out-of-bounds
image to fit entirely within `max_width × max_height`, preserving
aspect ratio within one pixel of rounding, never upscales, and leaves
the dimensions of an already-fitting image exactly unchanged. -/
theorem c5_bound_dims (img : PILImage) (mW mH : Int)
    (hw : 1 ≤ img.width) (hh : 1 ≤ img.height) (hx : 1 ≤ mW) (hy : 1 ≤ mH) :
    ∃ out, boundStep img mW mH = Except.ok out ∧
      out.width ≤ img.width ∧ out.height ≤ img.height ∧
      (out.width : Int) ≤ mW ∧ (out.height : Int) ≤ mH ∧
      |(out.width : Int) * (img.height : Int) - (img.width : Int) * (out.height : Int)| ≤
        max (img.width : Int) (img.height : Int) ∧
      (((img.width : Int) ≤ mW ∧ (img.height : Int) ≤ mH) →
        out.width = img.width ∧ out.height = img.height) := by
  obtain ⟨out, h1, _, _, _, h5, h6, h7, h8, h9, h10⟩ := boundStep_spec img mW mH hw hh hx hy
  refine ⟨out, h1, h5, h6, h7, h8, h10, fun hf => ?_⟩
  rw [h9 hf]
  exact ⟨rfl, rfl⟩

/-- C5 witness: at the 3000×2000 sample and at a 100×100 in-bounds
sample under the default bounds. -/
theorem c5_bound_dims_w :
    (∃ out, boundStep rgbaSample 1920 1920 = Except.ok out ∧
      out.width ≤ rgbaSample.width ∧ out.height ≤ rgbaSample.height ∧
      (out.width : Int) ≤ 1920 ∧ (out.height : Int) ≤ 1920 ∧
      |(out.width : Int) * (rgbaSample.height : Int) -
          (rgbaSample.width : Int) * (out.height : Int)| ≤
        max (rgbaSample.width : Int) (rgbaSample.height : Int) ∧
      (((rgbaSample.width : Int) ≤ 1920 ∧ (rgbaSample.height : Int) ≤ 1920) →
        out.width = rgbaSample.width ∧ out.height = rgbaSample.height)) ∧
    (∃ out, boundStep rgbSample 1920 1920 = Except.ok out ∧
      out.width ≤ rgbSample.width ∧ out.height ≤ rgbSample.height ∧
      (out.width : Int) ≤ 1920 ∧ (out.height : Int) ≤ 1920 ∧
      |(out.width : Int) * (rgbSample.height : Int) -
          (rgbSample.width : Int) * (out.height : Int)| ≤
        max (rgbSample.width : Int) (rgbSample.height : Int) ∧
      (((rgbSample.width : Int) ≤ 1920 ∧ (rgbSample.height : Int) ≤ 1920) →
        out.width = rgbSample.width ∧ out.height = rgbSample.height)) :=
  ⟨c5_bound_dims rgbaSample 1920 1920 (by decide) (by decide) (by decide) (by decide),
   c5_bound_dims rgbSample 1920 1920 (by decide) (by decide) (by decide) (by decide)⟩

/-- C6: whenever downscaling is required, the output aspect ratio
matches the input's within one pixel of rounding (the bound dimension
is exact and the other is within one pixel, so the cross products
differ by at most `max width height`); and concretely the 3000×2000
full-color-with-alpha PNG under policy (1920, 1920, 85) yields an
opaque 1920×1280 JPEG. -/
theorem c6_aspect_preserved :
    (∀ (img : PILImage) (mW mH : Int), 1 ≤ img.width → 1 ≤ img.height →
      1 ≤ mW → 1 ≤ mH →
      ((img.width : Int) > mW ∨ (img.height : Int) > mH) →
      ∃ out, boundStep img mW mH = Except.ok out ∧
        |(out.width : Int) * (img.height : Int) - (img.width : Int) * (out.height : Int)| ≤
          max (img.width : Int) (img.height : Int)) ∧
    (∃ e : Encoded,
      resize_image (some pngField) 1920 1920 85 = some ⟨"photo.png", FileData.image e⟩ ∧
      e.format = ImgFormat.JPEG ∧ e.quality = 85 ∧
      e.image.width = 1920 ∧ e.image.height = 1280 ∧ e.image.mode = Mode.RGB) := by
  constructor
  · intro img mW mH hw hh hx hy hbig
    obtain ⟨out, h1, _, _, _, _, _, _, _, _, h10⟩ := boundStep_spec img mW mH hw hh hx hy
    exact ⟨out, h1, h10⟩
  · refine ⟨⟨ImgFormat.JPEG, 85, true, resizeTo (convertStep rgbaSample) 1920 1280⟩,
      resize_image_of_tryBody_ok rgba_tryBody_eval, rfl, rfl, rfl, rfl, ?_⟩
    show (convertStep rgbaSample).mode = Mode.RGB
    exact convertStep_mode rgbaSample

/-- C6 witness: the general bound instantiated at the 3000×2000 sample,
together with the concrete scenario. -/
theorem c6_aspect_preserved_w :
    (∃ out, boundStep rgbaSample 1920 1920 = Except.ok out ∧
      |(out.width : Int) * (rgbaSample.height : Int) -
          (rgbaSample.width : Int) * (out.height : Int)| ≤
        max (rgbaSample.width : Int) (rgbaSample.height : Int)) ∧
    (∃ e : Encoded,
      resize_image (some pngField) 1920 1920 85 = some ⟨"photo.png", FileData.image e⟩ ∧
      e.format = ImgFormat.JPEG ∧ e.quality = 85 ∧
      e.image.width = 1920 ∧ e.image.height = 1280 ∧ e.image.mode = Mode.RGB) :=
  ⟨c6_aspect_preserved.1 rgbaSample 1920 1920 (by decide) (by decide) (by decide)
      (by decide) (by decide),
    c6_aspect_preserved.2⟩

/-- C7: normalization is idempotent on pixel dimensions: an input that
is already normalized — in bounds and opaque full-color — comes out of
a second normalization with exactly the width and height it had. -/
theorem c7_idempotent_dims (f : ImageFieldState) (e : Encoded) (mW mH q : Int)
    (hc : f.content = FileData.image e)
    (hmode : e.image.mode = Mode.RGB)
    (hw : 1 ≤ e.image.width) (hh : 1 ≤ e.image.height)
    (hbw : (e.image.width : Int) ≤ mW) (hbh : (e.image.height : Int) ≤ mH) :
    ∃ e2 : Encoded,
      resize_image (some f) mW mH q = some ⟨f.name, FileData.image e2⟩ ∧
      e2.image.width = e.image.width ∧ e2.image.height = e.image.height := by
  have hconv : convertStep e.image = e.image := convertStep_rgb_id e.image hmode
  have hbound : boundStep e.image mW mH = Except.ok e.image := by
    unfold boundStep
    rw [if_neg (by omega)]
  have htb : tryBody f mW mH q =
      Except.ok ⟨f.name, FileData.image ⟨ImgFormat.JPEG, q, true, e.image⟩⟩ := by
    unfold tryBody
    rw [hc]
    simp only [imageOpen, hconv, hbound, jpegSave_rgb_ok e.image hmode q true]
  exact ⟨_, resize_image_of_tryBody_ok htb, rfl, rfl⟩

/-- C7 witness: a 100×100 opaque JPEG keeps its dimensions. -/
theorem c7_idempotent_dims_w :
    ∃ e2 : Encoded,
      resize_image (some normalField) 1920 1920 85 =
        some ⟨normalField.name, FileData.image e2⟩ ∧
      e2.image.width = normalEnc.image.width ∧
      e2.image.height = normalEnc.image.height :=
  c7_idempotent_dims normalField normalEnc 1920 1920 85 rfl rfl (by decide) (by decide)
    (by decide) (by decide)

/-- C8: every successfully decoded input, whatever its original format,
is re-encoded as JPEG at the policy quality with encoder-level
optimization enabled, and stored under the field's existing logical
filename (the normalizer does not rename). -/
theorem c8_jpeg_output (f : ImageFieldState) (e0 : Encoded) (mW mH q : Int)
    (hc : f.content = FileData.image e0)
    (hw : 1 ≤ e0.image.width) (hh : 1 ≤ e0.image.height)
    (hx : 1 ≤ mW) (hy : 1 ≤ mH) :
    ∃ e : Encoded,
      resize_image (some f) mW mH q = some ⟨f.name, FileData.image e⟩ ∧
      e.format = ImgFormat.JPEG ∧ e.quality = q ∧ e.optimize = true := by
  obtain ⟨out, h1, _, _, _, _, _, _, _⟩ := tryBody_ok f e0 mW mH q hc hw hh hx hy
  exact ⟨_, resize_image_of_tryBody_ok h1, rfl, rfl, rfl⟩

/-- C8 witness: the PNG upload converges to JPEG at quality 85 with
optimization, keeping the name `photo.png`. -/
theorem c8_jpeg_output_w :
    ∃ e : Encoded,
      resize_image (some pngField) 1920 1920 85 = some ⟨pngField.name, FileData.image e⟩ ∧
      e.format = ImgFormat.JPEG ∧ e.quality = 85 ∧ e.optimize = true :=
  c8_jpeg_output pngField pngEnc 1920 1920 85 rfl (by decide) (by decide) (by decide)
    (by decide)

/-- C9: an absent image is a no-op: `resize_image` returns absent
without error, and each entity save hook leaves an absent image absent
and never invokes the normalizer. -/
theorem c9_absent_noop :
    (∀ mW mH q : Int, resize_image none mW mH q = none) ∧
    (∀ (ev : Event) (mW mH q : Int), ev.image = none →
      Event.save ev mW mH q = (ev, false)) ∧
    (∀ (c : Category) (mW mH q : Int), c.image = none →
      Category.save c mW mH q = (c, false)) ∧
    (∀ (ex : Exhibit) (ufs : Option (List String)) (mW mH q : Int), ex.image = none →
      Exhibit.save ex ufs mW mH q = (ex, false)) := by
  refine ⟨fun _ _ _ => rfl, ?_, ?_, ?_⟩
  · rintro ⟨t, i⟩ mW mH q himg
    obtain rfl : i = none := himg
    rfl
  · rintro ⟨t, i⟩ mW mH q himg
    obtain rfl : i = none := himg
    rfl
  · rintro ⟨t, i, v⟩ ufs mW mH q himg
    obtain rfl : i = none := himg
    cases ufs with
    | none => rfl
    | some fs =>
      simp only [Exhibit.save]
      split
      · rfl
      · rfl

/-- C9 witness: concrete imageless entities. -/
theorem c9_absent_noop_w :
    resize_image none 1920 1920 85 = none ∧
    Event.save ⟨"E", none⟩ 1920 1920 85 = (⟨"E", none⟩, false) ∧
    Category.save ⟨"C", none⟩ 1920 1920 85 = (⟨"C", none⟩, false) ∧
    Exhibit.save ⟨"X", none, 0⟩ none 1920 1920 85 = (⟨"X", none, 0⟩, false) :=
  ⟨c9_absent_noop.1 1920 1920 85,
   c9_absent_noop.2.1 ⟨"E", none⟩ 1920 1920 85 rfl,
   c9_absent_noop.2.2.1 ⟨"C", none⟩ 1920 1920 85 rfl,
   c9_absent_noop.2.2.2 ⟨"X", none, 0⟩ none 1920 1920 85 rfl⟩

/-- C10: for any input field and any policy values whatsoever —
non-positive bounds or out-of-range quality included — `resize_image`
never propagates an error: an internal failure at any stage leaves the
field exactly as it was, and the only possible results are the
unchanged field or a JPEG-normalized field under the same name. -/
theorem c10_fail_open (f : ImageFieldState) (mW mH q : Int) :
    (∀ err : PILError, tryBody f mW mH q = Except.error err →
      resize_image (some f) mW mH q = some f) ∧
    (resize_image (some f) mW mH q = some f ∨
      ∃ e : Encoded, resize_image (some f) mW mH q = some ⟨f.name, FileData.image e⟩ ∧
        e.format = ImgFormat.JPEG) := by
  constructor
  · intro err herr
    exact resize_image_of_tryBody_error herr
  · rcases resize_outcomes f mW mH q with hl | ⟨e, he, hfmt, _, _⟩
    · exact Or.inl hl
    · exact Or.inr ⟨e, he, hfmt⟩

/-- C10 witness: the decodable upload under the invalid policy
(0, 0, 85): the zero bound makes the bounding step raise internally and
the field passes through unchanged. -/
theorem c10_fail_open_w :
    ((∀ err : PILError, tryBody pngField 0 0 85 = Except.error err →
      resize_image (some pngField) 0 0 85 = some pngField) ∧
    (resize_image (some pngField) 0 0 85 = some pngField ∨
      ∃ e : Encoded, resize_image (some pngField) 0 0 85 =
          some ⟨pngField.name, FileData.image e⟩ ∧
        e.format = ImgFormat.JPEG)) ∧
    resize_image (some pngField) 0 0 85 = some pngField :=
  ⟨c10_fail_open pngField 0 0 85, rfl⟩

end Museum
